import Mathlib

/-!
Shallow embedding of `src/git.rs` from the `agentic-prompt-sync` repository.

The Rust code drives two external capabilities: the git library (git2) and
the filesystem.  Both are modelled as deterministic oracles collected in a
`GitWorld` structure; every externally observable action the code performs
(existence check, directory removal, clone attempt, fetch, checkout) is
recorded in an explicit event trace so that theorems can speak about which
attempts were made, in which order, and with which options.
-/

namespace Aps

/-- Filesystem paths, modelled as plain strings (the contents of a
`PathBuf`). -/
abbrev Path := String

/-- Models Rust's `PathBuf::join` for a relative right-hand component:
the components are concatenated with a separator. -/
def Path.join (root : Path) (rel : String) : Path :=
  root ++ "/" ++ rel

/-- Abstract handle to a `git2::Repository`. -/
structure Repository where
  id : Nat
deriving DecidableEq, Repr

/-- Abstract handle to a `git2::Reference`. -/
structure Reference where
  id : Nat
deriving DecidableEq, Repr

/-- Abstract handle to a `git2::Remote`. -/
structure Remote where
  id : Nat
deriving DecidableEq, Repr

/-- Abstract commit; `oid` is the hex digest produced by
`commit.id().to_string()`. -/
structure Commit where
  oid : String
deriving DecidableEq, Repr

/-- Abstract handle to a `tempfile::TempDir`; `path` is `temp_dir.path()`.
`TempDir::new()` creates the directory on disk, so the path exists as soon
as the handle exists. -/
structure TempDir where
  path : Path
deriving DecidableEq, Repr

/-- The error type of the crate (`ApsError` in `src/error.rs`, which is not
part of the shown sources; the three variants used by `src/git.rs` are
reconstructed from their construction sites there and from the spec's error
taxonomy: an I/O error with a context message, a `GitError` carrying a
message string, and `SourcePathNotFound` carrying the attempted path). -/
inductive ApsError where
  | ioError (cause : String) (context : String)
  | GitError (message : String)
  | SourcePathNotFound (path : Path)
deriving DecidableEq, Repr

/-- A credential value returned by a credential callback
(`git2::Cred::ssh_key_from_agent`). -/
inductive Cred where
  | sshKeyFromAgent (username : String)
deriving DecidableEq, Repr

/-- Embedding of Rust's `str::starts_with`: character-level prefix test. -/
def starts_with (s pre : String) : Bool :=
  pre.data.isPrefixOf s.data

/-- The credential callback installed by the code (both in
`clone_with_ref_fallback` and in `fetch_and_checkout`):
`git2::Cred::ssh_key_from_agent(username_from_url.unwrap_or("git"))`.
Only the `username_from_url` argument is modelled; the `url` and
`allowed_types` arguments of the real callback are ignored by the code. -/
def sshAgentCredentials (username_from_url : Option String) : Cred :=
  Cred.sshKeyFromAgent (username_from_url.getD "git")

/-- The subset of `git2::FetchOptions` state the code manipulates:
an optional clone depth and an optional credentials callback. -/
structure FetchOptions where
  depth : Option Nat
  remoteCallbacks : Option (Option String → Cred)

/-- The configuration of one `builder.clone(url, path)` call: the URL and
target path, the requested branch, and the fetch options attached to the
builder. -/
structure CloneAttempt where
  url : String
  path : Path
  branch : String
  fetchOpts : FetchOptions

/-- Externally observable actions performed by the code. -/
inductive Event where
  /-- `path.exists()` was queried and returned `existed`. -/
  | checked (p : Path) (existed : Bool)
  /-- `std::fs::remove_dir_all(path)` was invoked and succeeded iff `ok`
  (its result is discarded by the code either way). -/
  | removedDir (p : Path) (ok : Bool)
  /-- `builder.clone(url, path)` was invoked with configuration `a` and
  succeeded iff `ok`. -/
  | cloneTried (a : CloneAttempt) (ok : Bool)
  /-- `remote.fetch(refspecs, opts, None)` was invoked. -/
  | fetched (refspecs : List String) (opts : FetchOptions)
  /-- `repo.checkout_tree` was invoked for commit `c` and succeeded. -/
  | checkedOut (r : Repository) (c : Commit)

/-- Deterministic oracle for the external world (git2 + filesystem).
Each field gives the outcome of one external operation; error outcomes
carry the library error's display string. -/
structure GitWorld where
  /-- Outcome of `TempDir::new()`. -/
  newTempDir : Except String TempDir
  /-- Whether the `std::fs::remove_dir_all` call made in iteration `i` of
  the fallback loop succeeds. -/
  removeOk : Nat → Bool
  /-- Whether a failed clone in iteration `i` leaves residue at the target
  path (so that it exists at the start of the next iteration). -/
  residue : Nat → Bool
  /-- Outcome of `builder.clone`; the first argument tells whether the
  target path still existed at the moment of the call. -/
  clone : Bool → CloneAttempt → Except String Repository
  /-- Outcome of `repo.head()`. -/
  head : Repository → Except String Reference
  /-- Outcome of `reference.peel_to_commit()`. -/
  peelToCommit : Reference → Except String Commit
  /-- Outcome of `Repository::open(path)`. -/
  openRepo : Path → Except String Repository
  /-- Outcome of `repo.find_remote(name)`. -/
  findRemote : Repository → String → Except String Remote
  /-- Outcome of `remote.fetch(refspecs, opts, None)`. -/
  fetch : Remote → List String → FetchOptions → Except String Unit
  /-- Outcome of `repo.find_reference(name)`. -/
  findReference : Repository → String → Except String Reference
  /-- Outcome of `repo.checkout_tree(obj, None)`. -/
  checkoutTree : Repository → Commit → Except String Unit

/-- Minimal model of Rust's `Debug` escaping for one character inside a
string literal (`"` and `\` are escaped; other escapes do not occur in the
inputs this code formats). -/
def debugEscapeChar (c : Char) : List Char :=
  if c = '"' ∨ c = '\\' then ['\\', c] else [c]

/-- Rust `Debug` rendering of a string: surrounding quotes with escaping. -/
def debugStr (s : String) : String :=
  "\"" ++ String.mk (s.data.map debugEscapeChar).flatten ++ "\""

/-- Comma-separated `Debug` renderings of the elements. -/
def debugListAux : List String → String
  | [] => ""
  | [x] => debugStr x
  | x :: y :: xs => debugStr x ++ ", " ++ debugListAux (y :: xs)

/-- Rust `Debug` rendering of a `Vec<String>`, as produced by the
`format!("{:?}", ...)` call in `clone_with_ref_fallback` (the braces in the
format string are placeholders, not literal output). -/
def debugList (l : List String) : String :=
  "[" ++ debugListAux l ++ "]"

/-- The fetch options built for one clone attempt: the credentials
callback is attached first (only when `is_ssh`), then the depth is set to 1
(only when `shallow`). -/
def mkFetchOptions (shallow is_ssh : Bool) : FetchOptions :=
  let base : FetchOptions := { depth := none, remoteCallbacks := none }
  let withCreds :=
    if is_ssh then { base with remoteCallbacks := some sshAgentCredentials }
    else base
  if shallow then { withCreds with depth := some 1 } else withCreds

/-- The clone configuration used for one candidate ref. -/
def attemptFor (url : String) (path : Path) (shallow is_ssh : Bool)
    (refName : String) : CloneAttempt :=
  { url := url, path := path, branch := refName,
    fetchOpts := mkFetchOptions shallow is_ssh }

/-- The loop body of `clone_with_ref_fallback`: iterate over the remaining
candidate refs, cleaning up the target path when it exists, attempting a
clone for each candidate, and stopping at the first success.  Arguments
after the ref list: whether the target path currently exists, the iteration
index (used to address the oracles), and the `last_error` accumulator.
Returns the event trace, the final `last_error`, and the successful
`(repository, ref)` pair if any candidate succeeded. -/
def cloneGo (w : GitWorld) (url : String) (path : Path)
    (shallow is_ssh : Bool) :
    List String → Bool → Nat → Option String →
      List Event × Option String × Option (Repository × String)
  | [], _, _, lastError => ([], lastError, none)
  | refName :: rest, pathExists, idx, lastError =>
    match w.clone (if pathExists then !(w.removeOk idx) else false)
        (attemptFor url path shallow is_ssh refName) with
    | Except.ok repo =>
        (Event.checked path pathExists ::
           (if pathExists then [Event.removedDir path (w.removeOk idx)] else []) ++
           [Event.cloneTried (attemptFor url path shallow is_ssh refName) true],
         lastError, some (repo, refName))
    | Except.error e =>
        let r := cloneGo w url path shallow is_ssh rest (w.residue idx)
          (idx + 1) (some e)
        (Event.checked path pathExists ::
           (if pathExists then [Event.removedDir path (w.removeOk idx)] else []) ++
           Event.cloneTried (attemptFor url path shallow is_ssh refName) false :: r.1,
         r.2.1, r.2.2)

/-- Embedding of `clone_with_ref_fallback` (src/git.rs lines 68-128).
`pathExistsInit` is the initial filesystem state of the target path (true
when called from `clone_and_resolve`, since `TempDir::new` created it).
On exhaustion of all candidates the error message is built from the full
ref list and the last error only. -/
def clone_with_ref_fallback (w : GitWorld) (url : String) (path : Path)
    (refs : List String) (shallow is_ssh : Bool) (pathExistsInit : Bool) :
    List Event × Except ApsError (Repository × String) :=
  let r := cloneGo w url path shallow is_ssh refs pathExistsInit 0 none
  match r.2.2 with
  | some success => (r.1, Except.ok success)
  | none =>
    let errorDetail := (r.2.1.map (fun e => ": " ++ e)).getD ""
    (r.1, Except.error (ApsError.GitError
      ("Failed to clone with refs " ++ debugList refs ++ errorDetail)))

/-- The candidate ref list of `clone_and_resolve` (src/git.rs lines 33-37):
the fixed pair for the sentinel ref `"auto"`, the single requested ref
otherwise. -/
def refsToTry (git_ref : String) : List String :=
  if git_ref == "auto" then ["main", "master"] else [git_ref]

/-- Result record of a successful resolution (`ResolvedGitSource`,
src/git.rs lines 8-17). -/
structure ResolvedGitSource where
  temp_dir : TempDir
  repo_path : Path
  resolved_ref : String
  commit_sha : String
deriving DecidableEq, Repr

/-- Embedding of `clone_and_resolve` (src/git.rs lines 20-65): create a
temp directory, decide SSH-ness from the URL prefix, build the candidate
list, run the fallback clone, then read HEAD and peel it to a commit. -/
def clone_and_resolve (w : GitWorld) (url git_ref : String) (shallow : Bool) :
    List Event × Except ApsError ResolvedGitSource :=
  match w.newTempDir with
  | Except.error e =>
      ([], Except.error
        (ApsError.ioError e "Failed to create temp directory for git clone"))
  | Except.ok temp_dir =>
    let repo_path := temp_dir.path
    let is_ssh := starts_with url "git@" || starts_with url "ssh://"
    let refs_to_try := refsToTry git_ref
    let r := clone_with_ref_fallback w url repo_path refs_to_try shallow is_ssh true
    match r.2 with
    | Except.error e => (r.1, Except.error e)
    | Except.ok (repo, resolved_ref) =>
      match w.head repo with
      | Except.error e =>
          (r.1, Except.error (ApsError.GitError ("Failed to get HEAD: " ++ e)))
      | Except.ok headRef =>
        match w.peelToCommit headRef with
        | Except.error e =>
            (r.1, Except.error (ApsError.GitError ("Failed to get commit: " ++ e)))
        | Except.ok c =>
            (r.1, Except.ok { temp_dir := temp_dir, repo_path := repo_path,
                              resolved_ref := resolved_ref, commit_sha := c.oid })

/-- Embedding of `validate_path_exists` (src/git.rs lines 131-140); `fs`
is the filesystem existence oracle (`Path::exists`, true for files and
directories alike). -/
def validate_path_exists (fs : Path → Bool) (repo_path : Path)
    (asset_path : String) : Except ApsError Path :=
  let full_path := Path.join repo_path asset_path
  if !(fs full_path) then
    Except.error (ApsError.SourcePathNotFound full_path)
  else
    Except.ok full_path

/-- Embedding of `fetch_and_checkout` (src/git.rs lines 143-185): open the
repository, find the `origin` remote, fetch the requested ref with an
unconditionally attached SSH-agent credential callback, resolve
`FETCH_HEAD` to a commit, and check the tree out to it. -/
def fetch_and_checkout (w : GitWorld) (repo_path : Path) (git_ref : String) :
    List Event × Except ApsError (String × String) :=
  match w.openRepo repo_path with
  | Except.error e =>
      ([], Except.error (ApsError.GitError ("Failed to open repository: " ++ e)))
  | Except.ok repo =>
    match w.findRemote repo "origin" with
    | Except.error e =>
        ([], Except.error
          (ApsError.GitError ("Failed to find remote 'origin': " ++ e)))
    | Except.ok remote =>
      let fetch_opts : FetchOptions :=
        { depth := none, remoteCallbacks := some sshAgentCredentials }
      let ev := Event.fetched [git_ref] fetch_opts
      match w.fetch remote [git_ref] fetch_opts with
      | Except.error e =>
          ([ev], Except.error (ApsError.GitError ("Failed to fetch: " ++ e)))
      | Except.ok _ =>
        match w.findReference repo "FETCH_HEAD" with
        | Except.error e =>
            ([ev], Except.error
              (ApsError.GitError ("Failed to find FETCH_HEAD: " ++ e)))
        | Except.ok fetch_head =>
          match w.peelToCommit fetch_head with
          | Except.error e =>
              ([ev], Except.error
                (ApsError.GitError ("Failed to get commit: " ++ e)))
          | Except.ok commit =>
            match w.checkoutTree repo commit with
            | Except.error e =>
                ([ev], Except.error
                  (ApsError.GitError ("Failed to checkout: " ++ e)))
            | Except.ok _ =>
                ([ev, Event.checkedOut repo commit],
                 Except.ok (git_ref, commit.oid))

/-- The clone attempts recorded in a trace, in order, each with its
success flag. -/
def cloneEvents (t : List Event) : List (CloneAttempt × Bool) :=
  t.filterMap (fun e =>
    match e with
    | Event.cloneTried a ok => some (a, ok)
    | _ => none)

/-- Whether an event is a clone attempt. -/
def isCloneTried : Event → Bool
  | Event.cloneTried _ _ => true
  | _ => false

/-- Local discipline of the fallback loop's trace: after an existence
check that found the target present, the very next action removes it;
after an existence check that found it absent, the very next action is the
clone attempt (no removal); and after a removal — whether it succeeded or
failed — the very next action is the clone attempt, so a failed cleanup
never stops the loop. -/
def cleanupDiscipline : List Event → Prop
  | [] => True
  | Event.checked p true :: rest =>
      (∃ ok, rest.head? = some (Event.removedDir p ok)) ∧
        cleanupDiscipline rest
  | Event.checked _ false :: rest =>
      (∃ e, rest.head? = some e ∧ isCloneTried e = true) ∧
        cleanupDiscipline rest
  | Event.removedDir _ _ :: rest =>
      (∃ e, rest.head? = some e ∧ isCloneTried e = true) ∧
        cleanupDiscipline rest
  | _ :: rest => cleanupDiscipline rest

/-- Concrete world in which every external operation succeeds; used to
exercise the theorems on closed inputs. -/
def worldAllOk : GitWorld :=
  { newTempDir := Except.ok { path := "/tmp/clone" }
    removeOk := fun _ => true
    residue := fun _ => false
    clone := fun _ _ => Except.ok { id := 7 }
    head := fun _ => Except.ok { id := 1 }
    peelToCommit := fun _ => Except.ok { oid := "deadbeefdeadbeefdeadbeefdeadbeefdeadbeef" }
    openRepo := fun _ => Except.ok { id := 7 }
    findRemote := fun _ _ => Except.ok { id := 2 }
    fetch := fun _ _ _ => Except.ok ()
    findReference := fun _ _ => Except.ok { id := 3 }
    checkoutTree := fun _ _ => Except.ok () }

/-- Concrete world in which every clone attempt fails. -/
def worldAllFail : GitWorld :=
  { worldAllOk with clone := fun _ _ => Except.error "remote hung up" }

/-- Concrete world in which cloning branch `main` fails and any other
branch succeeds. -/
def worldMainFails : GitWorld :=
  { worldAllOk with
    clone := fun _ a =>
      if a.branch == "main" then Except.error "branch main not found"
      else Except.ok { id := 9 } }

/-- Concrete world in which clones succeed but reading HEAD fails. -/
def worldHeadFails : GitWorld :=
  { worldAllOk with head := fun _ => Except.error "unborn HEAD" }

theorem cloneGo_nil (w : GitWorld) (url : String) (path : Path)
    (shallow is_ssh : Bool) (b : Bool) (i : Nat) (le : Option String) :
    cloneGo w url path shallow is_ssh [] b i le = ([], le, none) := rfl

theorem cloneGo_cons_ok (w : GitWorld) (url : String) (path : Path)
    (shallow is_ssh : Bool) (refName : String) (rest : List String)
    (b : Bool) (i : Nat) (le : Option String) (repo : Repository)
    (hc : w.clone (if b then !(w.removeOk i) else false)
        (attemptFor url path shallow is_ssh refName) = Except.ok repo) :
    cloneGo w url path shallow is_ssh (refName :: rest) b i le =
      (Event.checked path b ::
         (if b then [Event.removedDir path (w.removeOk i)] else []) ++
         [Event.cloneTried (attemptFor url path shallow is_ssh refName) true],
       le, some (repo, refName)) := by
  simp only [cloneGo, hc]

theorem cloneGo_cons_error (w : GitWorld) (url : String) (path : Path)
    (shallow is_ssh : Bool) (refName : String) (rest : List String)
    (b : Bool) (i : Nat) (le : Option String) (e : String)
    (hc : w.clone (if b then !(w.removeOk i) else false)
        (attemptFor url path shallow is_ssh refName) = Except.error e) :
    cloneGo w url path shallow is_ssh (refName :: rest) b i le =
      (Event.checked path b ::
         (if b then [Event.removedDir path (w.removeOk i)] else []) ++
         Event.cloneTried (attemptFor url path shallow is_ssh refName) false ::
           (cloneGo w url path shallow is_ssh rest (w.residue i) (i + 1) (some e)).1,
       (cloneGo w url path shallow is_ssh rest (w.residue i) (i + 1) (some e)).2) := by
  conv_lhs => rw [cloneGo]
  rw [hc]

theorem cloneEvents_nil : cloneEvents [] = [] := rfl

theorem cloneEvents_checked (p : Path) (b : Bool) (l : List Event) :
    cloneEvents (Event.checked p b :: l) = cloneEvents l := rfl

theorem cloneEvents_removedDir (p : Path) (k : Bool) (l : List Event) :
    cloneEvents (Event.removedDir p k :: l) = cloneEvents l := rfl

theorem cloneEvents_cloneTried (a : CloneAttempt) (ok : Bool) (l : List Event) :
    cloneEvents (Event.cloneTried a ok :: l) = (a, ok) :: cloneEvents l := rfl

theorem cloneEvents_append (l₁ l₂ : List Event) :
    cloneEvents (l₁ ++ l₂) = cloneEvents l₁ ++ cloneEvents l₂ := by
  simp [cloneEvents]

theorem cloneEvents_cleanup (p : Path) (b k : Bool) (l : List Event) :
    cloneEvents ((if b then [Event.removedDir p k] else []) ++ l) =
      cloneEvents l := by
  cases b <;> simp [cloneEvents_append, cloneEvents_removedDir, cloneEvents_nil]

theorem cloneGo_attempts (w : GitWorld) (url : String) (path : Path)
    (shallow is_ssh : Bool) (refs : List String) :
    ∀ (b : Bool) (i : Nat) (le : Option String) (a : CloneAttempt) (ok : Bool),
      Event.cloneTried a ok ∈ (cloneGo w url path shallow is_ssh refs b i le).1 →
      ∃ br, br ∈ refs ∧ a = attemptFor url path shallow is_ssh br := by
  induction refs with
  | nil =>
    intro b i le a ok h
    rw [cloneGo_nil] at h
    simp at h
  | cons refName rest ih =>
    intro b i le a ok h
    cases hc : w.clone (if b then !(w.removeOk i) else false)
        (attemptFor url path shallow is_ssh refName) with
    | ok repo =>
      rw [cloneGo_cons_ok w url path shallow is_ssh refName rest b i le repo hc] at h
      cases b <;> simp at h <;>
        exact ⟨refName, List.mem_cons_self _ _, h.1⟩
    | error e =>
      rw [cloneGo_cons_error w url path shallow is_ssh refName rest b i le e hc] at h
      cases b <;> simp at h <;>
      · rcases h with h | h
        · exact ⟨refName, List.mem_cons_self _ _, h.1⟩
        · obtain ⟨br, hbr, ha⟩ := ih _ _ _ _ _ h
          exact ⟨br, List.mem_cons_of_mem _ hbr, ha⟩

theorem cloneGo_ok_shape (w : GitWorld) (url : String) (path : Path)
    (shallow is_ssh : Bool) (refs : List String) :
    ∀ (b : Bool) (i : Nat) (le : Option String) (repo : Repository) (rr : String),
      (cloneGo w url path shallow is_ssh refs b i le).2.2 = some (repo, rr) →
      ∃ pre : List String,
        (pre ++ [rr]) <+: refs ∧
        cloneEvents (cloneGo w url path shallow is_ssh refs b i le).1 =
          pre.map (fun br => (attemptFor url path shallow is_ssh br, false)) ++
            [(attemptFor url path shallow is_ssh rr, true)] ∧
        (∃ t0, (cloneGo w url path shallow is_ssh refs b i le).1 =
            t0 ++ [Event.cloneTried (attemptFor url path shallow is_ssh rr) true]) ∧
        ∃ eb, w.clone eb (attemptFor url path shallow is_ssh rr) = Except.ok repo := by
  induction refs with
  | nil =>
    intro b i le repo rr h
    rw [cloneGo_nil] at h
    simp at h
  | cons refName rest ih =>
    intro b i le repo rr h
    cases hc : w.clone (if b then !(w.removeOk i) else false)
        (attemptFor url path shallow is_ssh refName) with
    | ok repo' =>
      rw [cloneGo_cons_ok w url path shallow is_ssh refName rest b i le repo' hc] at h ⊢
      simp at h
      obtain ⟨h1, h2⟩ := h
      subst h1
      subst h2
      refine ⟨[], ⟨rest, by simp⟩, ?_, ?_, ⟨_, hc⟩⟩
      · simp [cloneEvents_checked, cloneEvents_cleanup, cloneEvents_cloneTried,
          cloneEvents_nil]
      · exact ⟨Event.checked path b ::
          (if b then [Event.removedDir path (w.removeOk i)] else []), by simp⟩
    | error e =>
      rw [cloneGo_cons_error w url path shallow is_ssh refName rest b i le e hc] at h ⊢
      simp only [] at h
      obtain ⟨pre, hpre, hev, ⟨t0, ht⟩, heb⟩ := ih _ _ _ _ _ h
      obtain ⟨t, htl⟩ := hpre
      refine ⟨refName :: pre, ⟨t, by simp [← htl]⟩, ?_, ?_, heb⟩
      · simp [cloneEvents_checked, cloneEvents_cleanup, cloneEvents_cloneTried, hev]
      · exact ⟨Event.checked path b ::
          (if b then [Event.removedDir path (w.removeOk i)] else []) ++
          Event.cloneTried (attemptFor url path shallow is_ssh refName) false :: t0,
          by simp [ht]⟩

theorem cloneGo_none_shape (w : GitWorld) (url : String) (path : Path)
    (shallow is_ssh : Bool) (refs : List String) :
    ∀ (b : Bool) (i : Nat) (le : Option String),
      (cloneGo w url path shallow is_ssh refs b i le).2.2 = none →
      cloneEvents (cloneGo w url path shallow is_ssh refs b i le).1 =
        refs.map (fun br => (attemptFor url path shallow is_ssh br, false)) ∧
      ((refs = [] ∧ (cloneGo w url path shallow is_ssh refs b i le).2.1 = le) ∨
        ∃ lastRef d eb, refs.getLast? = some lastRef ∧
          (cloneGo w url path shallow is_ssh refs b i le).2.1 = some d ∧
          w.clone eb (attemptFor url path shallow is_ssh lastRef) =
            Except.error d) := by
  induction refs with
  | nil =>
    intro b i le _
    rw [cloneGo_nil]
    exact ⟨rfl, Or.inl ⟨rfl, rfl⟩⟩
  | cons refName rest ih =>
    intro b i le h
    cases hc : w.clone (if b then !(w.removeOk i) else false)
        (attemptFor url path shallow is_ssh refName) with
    | ok repo =>
      rw [cloneGo_cons_ok w url path shallow is_ssh refName rest b i le repo hc] at h
      simp at h
    | error e =>
      rw [cloneGo_cons_error w url path shallow is_ssh refName rest b i le e hc] at h ⊢
      simp only [] at h
      obtain ⟨hev, hrest⟩ := ih _ _ _ h
      refine ⟨?_, ?_⟩
      · simp [cloneEvents_checked, cloneEvents_cleanup, cloneEvents_cloneTried, hev]
      · rcases hrest with ⟨hnil, hle⟩ | ⟨lastRef, d, eb, hlast, hd, herr⟩
        · subst hnil
          exact Or.inr ⟨refName, e, (if b then !(w.removeOk i) else false),
            rfl, hle, hc⟩
        · refine Or.inr ⟨lastRef, d, eb, ?_, hd, herr⟩
          cases rest with
          | nil => simp at hlast
          | cons x xs => rw [List.getLast?_cons_cons]; exact hlast

theorem cleanupDiscipline_nil : cleanupDiscipline [] := trivial

theorem cloneGo_cleanup (w : GitWorld) (url : String) (path : Path)
    (shallow is_ssh : Bool) (refs : List String) :
    ∀ (b : Bool) (i : Nat) (le : Option String),
      cleanupDiscipline (cloneGo w url path shallow is_ssh refs b i le).1 := by
  induction refs with
  | nil =>
    intro b i le
    rw [cloneGo_nil]
    exact cleanupDiscipline_nil
  | cons refName rest ih =>
    intro b i le
    cases hc : w.clone (if b then !(w.removeOk i) else false)
        (attemptFor url path shallow is_ssh refName) with
    | ok repo =>
      rw [cloneGo_cons_ok w url path shallow is_ssh refName rest b i le repo hc]
      cases b <;> simp [cleanupDiscipline, isCloneTried]
    | error e =>
      rw [cloneGo_cons_error w url path shallow is_ssh refName rest b i le e hc]
      cases b <;> simp [cleanupDiscipline, isCloneTried] <;> exact ih _ _ _

theorem fallback_trace_eq (w : GitWorld) (url : String) (path : Path)
    (refs : List String) (shallow is_ssh b : Bool) :
    (clone_with_ref_fallback w url path refs shallow is_ssh b).1 =
      (cloneGo w url path shallow is_ssh refs b 0 none).1 := by
  unfold clone_with_ref_fallback
  cases hr : (cloneGo w url path shallow is_ssh refs b 0 none).2.2 <;> simp [hr]

theorem fallback_ok_iff (w : GitWorld) (url : String) (path : Path)
    (refs : List String) (shallow is_ssh b : Bool) (repo : Repository)
    (rr : String) :
    (clone_with_ref_fallback w url path refs shallow is_ssh b).2 =
        Except.ok (repo, rr) ↔
      (cloneGo w url path shallow is_ssh refs b 0 none).2.2 = some (repo, rr) := by
  unfold clone_with_ref_fallback
  cases hr : (cloneGo w url path shallow is_ssh refs b 0 none).2.2 <;> simp [hr]

theorem fallback_error_iff (w : GitWorld) (url : String) (path : Path)
    (refs : List String) (shallow is_ssh b : Bool) (err : ApsError) :
    (clone_with_ref_fallback w url path refs shallow is_ssh b).2 =
        Except.error err ↔
      ((cloneGo w url path shallow is_ssh refs b 0 none).2.2 = none ∧
        err = ApsError.GitError ("Failed to clone with refs " ++ debugList refs ++
          (((cloneGo w url path shallow is_ssh refs b 0 none).2.1).map
            (fun e => ": " ++ e)).getD "")) := by
  unfold clone_with_ref_fallback
  cases hr : (cloneGo w url path shallow is_ssh refs b 0 none).2.2 <;>
    simp [hr, eq_comm]

theorem debugStr_infix_debugListAux (r : String) (l : List String) (h : r ∈ l) :
    (debugStr r).data <:+: (debugListAux l).data := by
  induction l with
  | nil => simp at h
  | cons x xs ih =>
    rcases List.mem_cons.1 h with h | h
    · subst h
      cases xs with
      | nil => exact List.infix_rfl
      | cons y ys =>
        rw [show debugListAux (r :: y :: ys) =
          debugStr r ++ ", " ++ debugListAux (y :: ys) from rfl]
        rw [String.data_append, String.data_append, List.append_assoc]
        exact (List.prefix_append _ _).isInfix
    · cases xs with
      | nil => simp at h
      | cons y ys =>
        rw [show debugListAux (x :: y :: ys) =
          debugStr x ++ ", " ++ debugListAux (y :: ys) from rfl]
        rw [String.data_append]
        exact (ih h).trans (List.suffix_append _ _).isInfix

theorem debugStr_infix_debugList (r : String) (l : List String) (h : r ∈ l) :
    (debugStr r).data <:+: (debugList l).data := by
  rw [show debugList l = "[" ++ debugListAux l ++ "]" from rfl]
  rw [String.data_append, String.data_append]
  exact (debugStr_infix_debugListAux r l h).trans (List.infix_append _ _ _)

theorem mkFetchOptions_callbacks (shallow is_ssh : Bool) :
    (mkFetchOptions shallow is_ssh).remoteCallbacks =
      if is_ssh then some sshAgentCredentials else none := by
  cases shallow <;> cases is_ssh <;> rfl

theorem refsToTry_ne_nil (git_ref : String) : refsToTry git_ref ≠ [] := by
  unfold refsToTry
  split <;> simp

theorem clone_and_resolve_trace_cases (w : GitWorld) (url git_ref : String)
    (shallow : Bool) :
    ((∃ e, w.newTempDir = Except.error e) ∧
      (clone_and_resolve w url git_ref shallow).1 = []) ∨
    ∃ td, w.newTempDir = Except.ok td ∧
      (clone_and_resolve w url git_ref shallow).1 =
        (clone_with_ref_fallback w url td.path (refsToTry git_ref) shallow
          (starts_with url "git@" || starts_with url "ssh://") true).1 := by
  cases htd : w.newTempDir with
  | error e =>
    left
    refine ⟨⟨e, rfl⟩, ?_⟩
    simp [clone_and_resolve, htd]
  | ok td =>
    right
    refine ⟨td, rfl, ?_⟩
    simp only [clone_and_resolve, htd]
    split
    · rfl
    · split
      · rfl
      · split <;> rfl

theorem clone_and_resolve_attempt_mem (w : GitWorld) (url git_ref : String)
    (shallow : Bool) (a : CloneAttempt) (ok : Bool)
    (h : Event.cloneTried a ok ∈ (clone_and_resolve w url git_ref shallow).1) :
    ∃ br, br ∈ refsToTry git_ref ∧ ∃ td, w.newTempDir = Except.ok td ∧
      a = attemptFor url td.path shallow
        (starts_with url "git@" || starts_with url "ssh://") br := by
  rcases clone_and_resolve_trace_cases w url git_ref shallow with ⟨_, h0⟩ | ⟨td, htd, htr⟩
  · rw [h0] at h
    simp at h
  · rw [htr, fallback_trace_eq] at h
    obtain ⟨br, hbr, ha⟩ := cloneGo_attempts w url td.path shallow
      (starts_with url "git@" || starts_with url "ssh://") (refsToTry git_ref)
      true 0 none a ok h
    exact ⟨br, hbr, td, htd, ha⟩

theorem cloneGo_head_cleanup (w : GitWorld) (url : String) (path : Path)
    (shallow is_ssh : Bool) (refName : String) (rest : List String)
    (i : Nat) (le : Option String) :
    ∃ k rest2, (cloneGo w url path shallow is_ssh (refName :: rest) true i le).1 =
      Event.checked path true :: Event.removedDir path k :: rest2 := by
  cases hc : w.clone (if true then !(w.removeOk i) else false)
      (attemptFor url path shallow is_ssh refName) with
  | ok repo =>
    rw [cloneGo_cons_ok w url path shallow is_ssh refName rest true i le repo hc]
    exact ⟨w.removeOk i,
      [Event.cloneTried (attemptFor url path shallow is_ssh refName) true],
      by simp⟩
  | error e =>
    rw [cloneGo_cons_error w url path shallow is_ssh refName rest true i le e hc]
    exact ⟨w.removeOk i,
      Event.cloneTried (attemptFor url path shallow is_ssh refName) false ::
        (cloneGo w url path shallow is_ssh rest (w.residue i) (i + 1) (some e)).1,
      by simp⟩

theorem fetch_trace_events (w : GitWorld) (p : Path) (g : String) :
    ∀ e ∈ (fetch_and_checkout w p g).1,
      e = Event.fetched [g]
            { depth := none, remoteCallbacks := some sshAgentCredentials } ∨
      ∃ repo c, e = Event.checkedOut repo c := by
  intro e he
  unfold fetch_and_checkout at he
  cases h1 : w.openRepo p with
  | error e1 => simp only [h1] at he; simp at he
  | ok repo =>
    simp only [h1] at he
    cases h2 : w.findRemote repo "origin" with
    | error e2 => simp only [h2] at he; simp at he
    | ok remote =>
      simp only [h2] at he
      cases h3 : w.fetch remote [g]
          { depth := none, remoteCallbacks := some sshAgentCredentials } with
      | error e3 =>
        simp only [h3] at he
        simp at he
        exact Or.inl he
      | ok u =>
        simp only [h3] at he
        cases h4 : w.findReference repo "FETCH_HEAD" with
        | error e4 =>
          simp only [h4] at he
          simp at he
          exact Or.inl he
        | ok fref =>
          simp only [h4] at he
          cases h5 : w.peelToCommit fref with
          | error e5 =>
            simp only [h5] at he
            simp at he
            exact Or.inl he
          | ok commit =>
            simp only [h5] at he
            cases h6 : w.checkoutTree repo commit with
            | error e6 =>
              simp only [h6] at he
              simp at he
              exact Or.inl he
            | ok u2 =>
              simp only [h6] at he
              simp at he
              rcases he with he | he
              · exact Or.inl he
              · exact Or.inr ⟨_, _, he⟩

/-- C1: the resolver's candidate ref list is computed from the requested
ref as follows: for the sentinel value (`"auto"` in the code, the
spec's "automatic") it is exactly the ordered pair of the primary and
secondary branch names (`"main"`, `"master"`); for any other requested ref
it is exactly that single ref.  Moreover every clone attempt the resolver
ever makes requests a branch from that list, so no third candidate is
attempted in the sentinel case. -/
theorem claim1_candidate_ref_list :
    refsToTry "auto" = ["main", "master"] ∧
    (∀ r : String, r ≠ "auto" → refsToTry r = [r]) ∧
    (∀ (w : GitWorld) (url git_ref : String) (shallow : Bool)
       (a : CloneAttempt) (ok : Bool),
      Event.cloneTried a ok ∈ (clone_and_resolve w url git_ref shallow).1 →
      a.branch ∈ refsToTry git_ref) := by
  refine ⟨rfl, ?_, ?_⟩
  · intro r h
    simp [refsToTry, h]
  · intro w url git_ref shallow a ok h
    obtain ⟨br, hbr, td, _, ha⟩ :=
      clone_and_resolve_attempt_mem w url git_ref shallow a ok h
    rw [ha]
    exact hbr

/-- Witness for C1: a non-sentinel ref yields the singleton list, and the
clone attempt recorded in a concrete run with the sentinel requests the
primary branch, which is in the pair. -/
theorem claim1_candidate_ref_list_witness :
    refsToTry "v1.2" = ["v1.2"] ∧
    (attemptFor "https://example.com/r.git" "/tmp/clone" false false "main").branch
      ∈ refsToTry "auto" :=
  ⟨claim1_candidate_ref_list.2.1 "v1.2" (by decide),
   claim1_candidate_ref_list.2.2 worldAllOk "https://example.com/r.git" "auto"
     false (attemptFor "https://example.com/r.git" "/tmp/clone" false false "main")
     true (by
      rw [show (clone_and_resolve worldAllOk "https://example.com/r.git" "auto" false).1 =
        [Event.checked "/tmp/clone" true, Event.removedDir "/tmp/clone" true,
         Event.cloneTried
           (attemptFor "https://example.com/r.git" "/tmp/clone" false false "main")
           true] from rfl]
      exact List.mem_cons_of_mem _ (List.mem_cons_of_mem _ (List.mem_cons_self _ _)))⟩

/-- C4: for every filesystem state, repository root and relative asset
path, validation returns the joined path exactly when the joined path
exists (no file/directory distinction: the oracle is the bare existence
predicate), otherwise it fails with `SourcePathNotFound` carrying the same
joined path; no other outcome is possible. -/
theorem claim4_validate_path (fs : Path → Bool) (root : Path) (p : String) :
    (validate_path_exists fs root p = Except.ok (Path.join root p) ↔
      fs (Path.join root p) = true) ∧
    (validate_path_exists fs root p =
        Except.error (ApsError.SourcePathNotFound (Path.join root p)) ↔
      fs (Path.join root p) = false) ∧
    (∀ q, validate_path_exists fs root p = Except.ok q → q = Path.join root p) ∧
    (∀ err, validate_path_exists fs root p = Except.error err →
      err = ApsError.SourcePathNotFound (Path.join root p)) := by
  cases hfs : fs (Path.join root p) <;>
    simp [validate_path_exists, hfs]

/-- Witness for C4: concrete existing and missing paths. -/
theorem claim4_validate_path_witness :
    (validate_path_exists (fun q => q == "/repo/README.md") "/repo" "README.md" =
      Except.ok "/repo/README.md") ∧
    (validate_path_exists (fun q => q == "/repo/README.md") "/repo" "missing.txt" =
      Except.error (ApsError.SourcePathNotFound "/repo/missing.txt")) :=
  ⟨(claim4_validate_path (fun q => q == "/repo/README.md") "/repo" "README.md").1.2
      (by decide),
   (claim4_validate_path (fun q => q == "/repo/README.md") "/repo" "missing.txt").2.1.2
      (by decide)⟩

/-- C2: the resolver attempts clones in candidate-list order, all into the
same target location, and stops at the first success: on a successful
resolution the recorded clone attempts are the attempts for a prefix
`pre ++ [resolved_ref]` of the candidate list, every attempt before the
last failed, the last attempt is the successful one and is the final event
of the run, and `resolved_ref` is a member of the candidate list (so if
the primary fails and the secondary succeeds, `resolved_ref` is the
secondary's name). -/
theorem claim2_first_success (w : GitWorld) (url : String) (path : Path)
    (refs : List String) (shallow is_ssh b : Bool) (repo : Repository)
    (rr : String)
    (h : (clone_with_ref_fallback w url path refs shallow is_ssh b).2 =
      Except.ok (repo, rr)) :
    rr ∈ refs ∧
    (∃ pre : List String,
      (pre ++ [rr]) <+: refs ∧
      cloneEvents (clone_with_ref_fallback w url path refs shallow is_ssh b).1 =
        pre.map (fun br => (attemptFor url path shallow is_ssh br, false)) ++
          [(attemptFor url path shallow is_ssh rr, true)]) ∧
    (∃ t0, (clone_with_ref_fallback w url path refs shallow is_ssh b).1 =
        t0 ++ [Event.cloneTried (attemptFor url path shallow is_ssh rr) true]) ∧
    (∀ a ok,
      Event.cloneTried a ok ∈ (clone_with_ref_fallback w url path refs shallow is_ssh b).1 →
      a.path = path ∧ a.url = url ∧ a.branch ∈ refs) := by
  have h' := (fallback_ok_iff w url path refs shallow is_ssh b repo rr).1 h
  obtain ⟨pre, hpre, hev, ht, _⟩ :=
    cloneGo_ok_shape w url path shallow is_ssh refs b 0 none repo rr h'
  rw [fallback_trace_eq]
  refine ⟨?_, ⟨pre, hpre, hev⟩, ht, ?_⟩
  · exact hpre.subset (by simp)
  · intro a ok hm
    obtain ⟨br, hbr, ha⟩ := cloneGo_attempts w url path shallow is_ssh refs
      b 0 none a ok hm
    rw [ha]
    exact ⟨rfl, rfl, hbr⟩

/-- Witness for C2: in a world where cloning `main` fails and `master`
succeeds, the resolver resolves to the secondary candidate, a member of
the pair. -/
theorem claim2_first_success_witness :
    "master" ∈ ["main", "master"] ∧
    ∃ t0, (clone_with_ref_fallback worldMainFails "https://example.com/r.git"
        "/tmp/clone" ["main", "master"] false false true).1 =
      t0 ++ [Event.cloneTried
        (attemptFor "https://example.com/r.git" "/tmp/clone" false false "master")
        true] :=
  ⟨(claim2_first_success worldMainFails "https://example.com/r.git" "/tmp/clone"
      ["main", "master"] false false true { id := 9 } "master" rfl).1,
   (claim2_first_success worldMainFails "https://example.com/r.git" "/tmp/clone"
      ["main", "master"] false false true { id := 9 } "master" rfl).2.2.1⟩

/-- C3: when every candidate fails, the resolver fails with a `GitError`
whose message is built from the full candidate list (each candidate's
quoted name occurs in the message) together with the description of the
last candidate's underlying error only — the message is a function of the
candidate list and that last error alone, so earlier candidates' errors
are not retained; and every candidate was indeed attempted and failed. -/
theorem claim3_all_fail_error (w : GitWorld) (url : String) (path : Path)
    (refs : List String) (shallow is_ssh b : Bool) (err : ApsError)
    (hne : refs ≠ [])
    (h : (clone_with_ref_fallback w url path refs shallow is_ssh b).2 =
      Except.error err) :
    ∃ msg d lastRef eb,
      err = ApsError.GitError msg ∧
      refs.getLast? = some lastRef ∧
      w.clone eb (attemptFor url path shallow is_ssh lastRef) = Except.error d ∧
      msg = "Failed to clone with refs " ++ debugList refs ++ (": " ++ d) ∧
      (∀ r ∈ refs, (debugStr r).data <:+: msg.data) ∧
      d.data <:+: msg.data ∧
      cloneEvents (clone_with_ref_fallback w url path refs shallow is_ssh b).1 =
        refs.map (fun br => (attemptFor url path shallow is_ssh br, false)) := by
  obtain ⟨hnone, herr⟩ :=
    (fallback_error_iff w url path refs shallow is_ssh b err).1 h
  obtain ⟨hev, hrest⟩ :=
    cloneGo_none_shape w url path shallow is_ssh refs b 0 none hnone
  rcases hrest with ⟨hnil, _⟩ | ⟨lastRef, d, eb, hlast, hd, hcl⟩
  · exact absurd hnil hne
  · rw [hd] at herr
    refine ⟨"Failed to clone with refs " ++ debugList refs ++ (": " ++ d),
      d, lastRef, eb, herr, hlast, hcl, rfl, ?_, ?_, ?_⟩
    · intro r hr
      rw [String.data_append, String.data_append]
      exact ((debugStr_infix_debugList r refs hr).trans
        (List.suffix_append _ _).isInfix).trans
        (List.prefix_append _ _).isInfix
    · rw [String.data_append, String.data_append]
      exact ((List.suffix_append _ _).isInfix.trans
        (List.suffix_append _ _).isInfix)
    · rw [fallback_trace_eq]
      exact hev

/-- Witness for C3: in a world where every clone fails, the two-candidate
run fails with the recorded message containing both quoted candidate names
and the last error's description. -/
theorem claim3_all_fail_error_witness :
    ∃ msg d lastRef eb,
      ApsError.GitError
          "Failed to clone with refs [\"main\", \"master\"]: remote hung up" =
        ApsError.GitError msg ∧
      (["main", "master"] : List String).getLast? = some lastRef ∧
      worldAllFail.clone eb
        (attemptFor "https://example.com/r.git" "/tmp/clone" false false lastRef) =
          Except.error d ∧
      msg = "Failed to clone with refs " ++ debugList ["main", "master"] ++
        (": " ++ d) ∧
      (∀ r ∈ (["main", "master"] : List String),
        (debugStr r).data <:+: msg.data) ∧
      d.data <:+: msg.data ∧
      cloneEvents (clone_with_ref_fallback worldAllFail "https://example.com/r.git"
          "/tmp/clone" ["main", "master"] false false true).1 =
        (["main", "master"] : List String).map
          (fun br => (attemptFor "https://example.com/r.git" "/tmp/clone"
            false false br, false)) :=
  claim3_all_fail_error worldAllFail "https://example.com/r.git" "/tmp/clone"
    ["main", "master"] false false true
    (ApsError.GitError
      "Failed to clone with refs [\"main\", \"master\"]: remote hung up")
    (by decide) (by rfl)

/-- C5: every clone attempt made by the resolver carries the SSH-agent
credential callback in its fetch options exactly when the URL starts with
`git@` or `ssh://`; for any other URL no credential callback is attached
to any attempt. -/
theorem claim5_clone_credentials (w : GitWorld) (url git_ref : String)
    (shallow : Bool) (a : CloneAttempt) (ok : Bool)
    (h : Event.cloneTried a ok ∈ (clone_and_resolve w url git_ref shallow).1) :
    (a.fetchOpts.remoteCallbacks = some sshAgentCredentials ↔
      (starts_with url "git@" || starts_with url "ssh://") = true) ∧
    ((starts_with url "git@" || starts_with url "ssh://") = false →
      a.fetchOpts.remoteCallbacks = none) := by
  obtain ⟨br, _, td, _, ha⟩ :=
    clone_and_resolve_attempt_mem w url git_ref shallow a ok h
  rw [ha]
  cases hssh : (starts_with url "git@" || starts_with url "ssh://") <;>
    simp [attemptFor, mkFetchOptions_callbacks, hssh]

/-- Witness for C5: a concrete HTTPS run attaches no callback, a concrete
SSH run attaches the agent callback. -/
theorem claim5_clone_credentials_witness :
    (attemptFor "https://example.com/r.git" "/tmp/clone" true false
      "main").fetchOpts.remoteCallbacks = none ∧
    (attemptFor "git@example.com:r.git" "/tmp/clone" false true
      "dev").fetchOpts.remoteCallbacks = some sshAgentCredentials :=
  ⟨(claim5_clone_credentials worldAllOk "https://example.com/r.git" "auto" true
      (attemptFor "https://example.com/r.git" "/tmp/clone" true false "main") true
      (by
        rw [show (clone_and_resolve worldAllOk "https://example.com/r.git" "auto" true).1 =
          [Event.checked "/tmp/clone" true, Event.removedDir "/tmp/clone" true,
           Event.cloneTried
             (attemptFor "https://example.com/r.git" "/tmp/clone" true false "main")
             true] from rfl]
        exact List.mem_cons_of_mem _
          (List.mem_cons_of_mem _ (List.mem_cons_self _ _)))).2 (by decide),
   (claim5_clone_credentials worldAllOk "git@example.com:r.git" "dev" false
      (attemptFor "git@example.com:r.git" "/tmp/clone" false true "dev") true
      (by
        rw [show (clone_and_resolve worldAllOk "git@example.com:r.git" "dev" false).1 =
          [Event.checked "/tmp/clone" true, Event.removedDir "/tmp/clone" true,
           Event.cloneTried
             (attemptFor "git@example.com:r.git" "/tmp/clone" false true "dev")
             true] from rfl]
        exact List.mem_cons_of_mem _
          (List.mem_cons_of_mem _ (List.mem_cons_self _ _)))).1.mpr (by decide)⟩

/-- C6: the refresh operation attaches the SSH-agent credential callback
to its one fetch unconditionally (its fetch options always carry the
callback and no depth limit, and the refspec list is exactly the requested
ref); the callback asks the agent using the URL's embedded username when
present and the default identity "git" otherwise; and this is asymmetric
with the clone resolver, which attaches no callback for non-SSH URLs. -/
theorem claim6_refresh_credentials (w : GitWorld) (p : Path) (g : String)
    (rs : List String) (opts : FetchOptions)
    (hmem : Event.fetched rs opts ∈ (fetch_and_checkout w p g).1) :
    opts.remoteCallbacks = some sshAgentCredentials ∧
    opts.depth = none ∧
    rs = [g] ∧
    (∀ u, sshAgentCredentials (some u) = Cred.sshKeyFromAgent u) ∧
    sshAgentCredentials none = Cred.sshKeyFromAgent "git" ∧
    (∀ (w2 : GitWorld) (url g2 : String) (s : Bool) (a : CloneAttempt)
       (ok : Bool),
      (starts_with url "git@" || starts_with url "ssh://") = false →
      Event.cloneTried a ok ∈ (clone_and_resolve w2 url g2 s).1 →
      a.fetchOpts.remoteCallbacks = none) := by
  rcases fetch_trace_events w p g _ hmem with he | ⟨repo, c, he⟩
  · simp only [Event.fetched.injEq] at he
    obtain ⟨h1, h2⟩ := he
    subst h2
    refine ⟨rfl, rfl, h1, fun u => rfl, rfl, ?_⟩
    intro w2 url g2 s a ok hssh hm
    obtain ⟨br, _, td, _, ha⟩ := clone_and_resolve_attempt_mem w2 url g2 s a ok hm
    rw [ha]
    simp [attemptFor, mkFetchOptions_callbacks, hssh]
  · simp at he

/-- Witness for C6: a concrete refresh run's recorded fetch options. -/
theorem claim6_refresh_credentials_witness :
    ({ depth := none, remoteCallbacks := some sshAgentCredentials } :
        FetchOptions).remoteCallbacks = some sshAgentCredentials ∧
    ({ depth := none, remoteCallbacks := some sshAgentCredentials } :
        FetchOptions).depth = none ∧
    ["feature-x"] = ["feature-x"] ∧
    (∀ u, sshAgentCredentials (some u) = Cred.sshKeyFromAgent u) ∧
    sshAgentCredentials none = Cred.sshKeyFromAgent "git" ∧
    (∀ (w2 : GitWorld) (url g2 : String) (s : Bool) (a : CloneAttempt)
       (ok : Bool),
      (starts_with url "git@" || starts_with url "ssh://") = false →
      Event.cloneTried a ok ∈ (clone_and_resolve w2 url g2 s).1 →
      a.fetchOpts.remoteCallbacks = none) :=
  claim6_refresh_credentials worldAllOk "/repo" "feature-x" ["feature-x"]
    { depth := none, remoteCallbacks := some sshAgentCredentials }
    (by
      rw [show (fetch_and_checkout worldAllOk "/repo" "feature-x").1 =
        [Event.fetched ["feature-x"]
          { depth := none, remoteCallbacks := some sshAgentCredentials },
         Event.checkedOut { id := 7 }
           { oid := "deadbeefdeadbeefdeadbeefdeadbeefdeadbeef" }] from rfl]
      exact List.mem_cons_self _ _)

/-- C7: a successful refresh returns the requested ref echoed back
unchanged, paired with the identity of the commit obtained by resolving
the fetch-result marker `FETCH_HEAD`; the working tree was successfully
checked out to that commit before returning (the checkout is the final
recorded action). -/
theorem claim7_refresh_result (w : GitWorld) (p : Path) (g r sha : String)
    (h : (fetch_and_checkout w p g).2 = Except.ok (r, sha)) :
    r = g ∧
    ∃ repo remote fref commit,
      w.openRepo p = Except.ok repo ∧
      w.findRemote repo "origin" = Except.ok remote ∧
      w.fetch remote [g]
        { depth := none, remoteCallbacks := some sshAgentCredentials } =
          Except.ok () ∧
      w.findReference repo "FETCH_HEAD" = Except.ok fref ∧
      w.peelToCommit fref = Except.ok commit ∧
      sha = commit.oid ∧
      w.checkoutTree repo commit = Except.ok () ∧
      (fetch_and_checkout w p g).1.getLast? =
        some (Event.checkedOut repo commit) := by
  unfold fetch_and_checkout at h ⊢
  cases h1 : w.openRepo p with
  | error e1 => simp [h1] at h
  | ok repo =>
    simp only [h1] at h ⊢
    cases h2 : w.findRemote repo "origin" with
    | error e2 => simp [h2] at h
    | ok remote =>
      simp only [h2] at h ⊢
      cases h3 : w.fetch remote [g]
          { depth := none, remoteCallbacks := some sshAgentCredentials } with
      | error e3 => simp [h3] at h
      | ok u =>
        simp only [h3] at h ⊢
        cases h4 : w.findReference repo "FETCH_HEAD" with
        | error e4 => simp [h4] at h
        | ok fref =>
          simp only [h4] at h ⊢
          cases h5 : w.peelToCommit fref with
          | error e5 => simp [h5] at h
          | ok commit =>
            simp only [h5] at h ⊢
            cases h6 : w.checkoutTree repo commit with
            | error e6 => simp [h6] at h
            | ok u2 =>
              simp only [h6] at h ⊢
              simp at h
              obtain ⟨hr, hsha⟩ := h
              refine ⟨hr.symm, repo, remote, fref, commit,
                rfl, h2, ?_, h4, h5, hsha.symm, ?_, rfl⟩
              · cases u; exact h3
              · cases u2; exact h6

/-- Witness for C7: a concrete successful refresh. -/
theorem claim7_refresh_result_witness :
    "feature-x" = "feature-x" ∧
    ∃ repo remote fref commit,
      worldAllOk.openRepo "/repo" = Except.ok repo ∧
      worldAllOk.findRemote repo "origin" = Except.ok remote ∧
      worldAllOk.fetch remote ["feature-x"]
        { depth := none, remoteCallbacks := some sshAgentCredentials } =
          Except.ok () ∧
      worldAllOk.findReference repo "FETCH_HEAD" = Except.ok fref ∧
      worldAllOk.peelToCommit fref = Except.ok commit ∧
      "deadbeefdeadbeefdeadbeefdeadbeefdeadbeef" = commit.oid ∧
      worldAllOk.checkoutTree repo commit = Except.ok () ∧
      (fetch_and_checkout worldAllOk "/repo" "feature-x").1.getLast? =
        some (Event.checkedOut repo commit) :=
  claim7_refresh_result worldAllOk "/repo" "feature-x" "feature-x"
    "deadbeefdeadbeefdeadbeefdeadbeefdeadbeef" rfl

/-- C8: if some candidate clone succeeds but reading the repository's
HEAD, or peeling it to a commit, fails, then the whole resolve operation
returns a `GitError` — never a `ResolvedSource`. -/
theorem claim8_no_partial_success (w : GitWorld) (url git_ref : String)
    (shallow : Bool) (td : TempDir) (repo : Repository) (rr : String)
    (htd : w.newTempDir = Except.ok td)
    (hok : (clone_with_ref_fallback w url td.path (refsToTry git_ref) shallow
        (starts_with url "git@" || starts_with url "ssh://") true).2 =
      Except.ok (repo, rr))
    (hfail : (∃ e, w.head repo = Except.error e) ∨
      ∃ hr e, w.head repo = Except.ok hr ∧ w.peelToCommit hr = Except.error e) :
    ∃ msg, (clone_and_resolve w url git_ref shallow).2 =
      Except.error (ApsError.GitError msg) := by
  rcases hfail with ⟨e, he⟩ | ⟨hr, e, hh, hp⟩
  · exact ⟨"Failed to get HEAD: " ++ e,
      by simp [clone_and_resolve, htd, hok, he]⟩
  · exact ⟨"Failed to get commit: " ++ e,
      by simp [clone_and_resolve, htd, hok, hh, hp]⟩

/-- Witness for C8: a concrete world where the clone succeeds and HEAD
reading fails; the resolve returns a GitError. -/
theorem claim8_no_partial_success_witness :
    ∃ msg, (clone_and_resolve worldHeadFails "https://example.com/r.git" "auto"
        false).2 = Except.error (ApsError.GitError msg) :=
  claim8_no_partial_success worldHeadFails "https://example.com/r.git" "auto"
    false { path := "/tmp/clone" } { id := 7 } "main" rfl rfl
    (Or.inl ⟨"unborn HEAD", rfl⟩)

/-- C9: on every successful resolve the returned `repo_path` is exactly
the root path of the returned temp-directory handle, not a proper
subdirectory of it. -/
theorem claim9_repo_path_is_tempdir_root (w : GitWorld) (url git_ref : String)
    (shallow : Bool) (res : ResolvedGitSource)
    (h : (clone_and_resolve w url git_ref shallow).2 = Except.ok res) :
    res.repo_path = res.temp_dir.path := by
  unfold clone_and_resolve at h
  cases htd : w.newTempDir with
  | error e => simp [htd] at h
  | ok td =>
    simp only [htd] at h
    cases hfb : (clone_with_ref_fallback w url td.path (refsToTry git_ref) shallow
        (starts_with url "git@" || starts_with url "ssh://") true).2 with
    | error e => simp [hfb] at h
    | ok s =>
      obtain ⟨repo, rr⟩ := s
      simp only [hfb] at h
      cases hh : w.head repo with
      | error e => simp [hh] at h
      | ok hr =>
        simp only [hh] at h
        cases hp : w.peelToCommit hr with
        | error e => simp [hp] at h
        | ok c =>
          simp only [hp] at h
          simp at h
          rw [← h]

/-- Witness for C9: concrete successful resolve. -/
theorem claim9_repo_path_is_tempdir_root_witness :
    ({ temp_dir := { path := "/tmp/clone" }, repo_path := "/tmp/clone",
       resolved_ref := "main",
       commit_sha := "deadbeefdeadbeefdeadbeefdeadbeefdeadbeef" } :
      ResolvedGitSource).repo_path =
    ({ temp_dir := { path := "/tmp/clone" }, repo_path := "/tmp/clone",
       resolved_ref := "main",
       commit_sha := "deadbeefdeadbeefdeadbeefdeadbeefdeadbeef" } :
      ResolvedGitSource).temp_dir.path :=
  claim9_repo_path_is_tempdir_root worldAllOk "https://example.com/r.git" "auto"
    false _ rfl

/-- C10: every iteration of the fallback loop removes the target directory
before the clone attempt exactly when it exists (the trace discipline:
an existence check that found the path present is immediately followed by
a removal, one that found it absent is immediately followed by the clone
attempt), a removal — succeeded or failed — is always immediately followed
by the clone attempt (so a failed cleanup never aborts the loop), every
error the call can return is a `GitError` (never a removal error), and in
a resolve the first attempt is also preceded by a removal, since the fresh
temp directory already exists. -/
theorem claim10_cleanup_discipline (w : GitWorld) (url : String) (path : Path)
    (refs : List String) (shallow is_ssh b : Bool) :
    cleanupDiscipline (clone_with_ref_fallback w url path refs shallow is_ssh b).1 ∧
    (∀ err, (clone_with_ref_fallback w url path refs shallow is_ssh b).2 =
        Except.error err → ∃ msg, err = ApsError.GitError msg) ∧
    (b = true → refs ≠ [] →
      ∃ k rest2, (clone_with_ref_fallback w url path refs shallow is_ssh b).1 =
        Event.checked path true :: Event.removedDir path k :: rest2) ∧
    (∀ (git_ref : String) (td : TempDir), w.newTempDir = Except.ok td →
      ∃ k rest2, (clone_and_resolve w url git_ref shallow).1 =
        Event.checked td.path true :: Event.removedDir td.path k :: rest2) := by
  refine ⟨?_, ?_, ?_, ?_⟩
  · rw [fallback_trace_eq]
    exact cloneGo_cleanup w url path shallow is_ssh refs b 0 none
  · intro err herr
    obtain ⟨_, hmsg⟩ :=
      (fallback_error_iff w url path refs shallow is_ssh b err).1 herr
    exact ⟨_, hmsg⟩
  · intro hb hne
    subst hb
    rw [fallback_trace_eq]
    cases refs with
    | nil => exact absurd rfl hne
    | cons refName rest =>
      exact cloneGo_head_cleanup w url path shallow is_ssh refName rest 0 none
  · intro git_ref td htd
    rcases clone_and_resolve_trace_cases w url git_ref shallow with
      ⟨⟨e, he⟩, _⟩ | ⟨td2, htd2, htr⟩
    · rw [htd] at he
      simp at he
    · rw [htd] at htd2
      simp only [Except.ok.injEq] at htd2
      subst htd2
      rw [htr, fallback_trace_eq]
      rcases hr : refsToTry git_ref with _ | ⟨refName, rest⟩
      · exact absurd hr (refsToTry_ne_nil git_ref)
      · exact cloneGo_head_cleanup w url td.path shallow
          (starts_with url "git@" || starts_with url "ssh://") refName rest 0 none

/-- Witness for C10: concrete conclusions in the all-failing world. -/
theorem claim10_cleanup_discipline_witness :
    (∃ msg, ApsError.GitError
        "Failed to clone with refs [\"main\", \"master\"]: remote hung up" =
      ApsError.GitError msg) ∧
    (∃ k rest2, (clone_with_ref_fallback worldAllFail "https://example.com/r.git"
        "/tmp/clone" ["main", "master"] false false true).1 =
      Event.checked "/tmp/clone" true ::
        Event.removedDir "/tmp/clone" k :: rest2) ∧
    (∃ k rest2, (clone_and_resolve worldAllFail "https://example.com/r.git"
        "auto" false).1 =
      Event.checked "/tmp/clone" true ::
        Event.removedDir "/tmp/clone" k :: rest2) :=
  ⟨(claim10_cleanup_discipline worldAllFail "https://example.com/r.git"
      "/tmp/clone" ["main", "master"] false false true).2.1
      (ApsError.GitError
        "Failed to clone with refs [\"main\", \"master\"]: remote hung up")
      (by rfl),
   (claim10_cleanup_discipline worldAllFail "https://example.com/r.git"
      "/tmp/clone" ["main", "master"] false false true).2.2.1 rfl (by decide),
   (claim10_cleanup_discipline worldAllFail "https://example.com/r.git"
      "/tmp/clone" ["main", "master"] false false true).2.2.2 "auto"
      { path := "/tmp/clone" } rfl⟩

end Aps
